import Mathlib

/-!
# Verification of the draw-it / tegne frame-paced resource lifecycle manager

This file embeds the core of the repository (frame pacer, deferred-destroy
queue, generational resource arena, bindless descriptor table, mesh
construction, shader-container deserialization, resize path) as executable
Lean definitions, and proves or refutes the specified properties.

Sources embedded from the repository:
* `src/tegne/src/device/mod.rs` — `IN_FLIGHT_FRAME_COUNT`, `Device::next_frame`,
  `Device::submit`, `Device::present`, `Device::current_frame`,
  `Device::wait_for_idle`.
* `src/tegne/src/tegne.rs` — `Tegne::begin_draw`, `Tegne::end_draw`,
  `Tegne::draw`, `Tegne::draw_on_window`, `Tegne::resize`,
  `Tegne::create_shader`, `Tegne::with_material` / `with_mesh`, `check!`.
* `src/tegne/src/mesh/mod.rs` — `Mesh::new`.
* `src/draw-it/src/pipeline/shader.rs` — `ShaderFile`, `Shader::new`.
* `src/tegne/src/surface/framebuffer.rs` — `Framebuffer::from_images`
  (descriptor index assignment).

Parts of the repository that are referenced by this code but whose files are
not available (`objects/mod.rs` — the `Objects` arena with `clean_unused`,
`with_*`, `add_*`; `pipeline/image_uniform` — the `ImageUniform` descriptor
table; `sync/fence.rs` — the fence wrappers) are modelled from the
specification, and are marked as such in their doc comments.
-/

namespace DrawIt

/-- `IN_FLIGHT_FRAME_COUNT` from `src/tegne/src/device/mod.rs` line 46. -/
def IN_FLIGHT_FRAME_COUNT : Nat := 2

/-- Modelled from the spec: state of one per-frame completion fence
(`sync_queue_submit` in `Device`).  The file `sync/fence.rs` of the repository is not
available; per the spec a fence is a CPU-observable signal of GPU work
completion: it is created signaled (so the first `next_frame` wait passes),
`fence::reset` makes it unsignaled, passing it to `queue_submit` arms it
(`pendingGpu`) and the GPU later signals it. -/
inductive FenceSt
  | signaled
  | unsignaled
  | pendingGpu
deriving DecidableEq, Repr

/-- A generational resource handle (`Id<T>` in `src/tegne/src/objects`):
slot index plus generation counter. -/
structure Handle where
  slotIdx : Nat
  gen : Nat
deriving DecidableEq, Repr

/-- One arena slot: optional payload (the resource, abstracted to a `Nat`
identity) and the current generation of the slot. -/
structure ResSlot where
  value : Option Nat
  gen : Nat
deriving DecidableEq, Repr

/-- A deferred-destroy queue entry: the removed resource and the frame index
that was current when `remove` was called. -/
structure DestroyEntry where
  resId : Nat
  slotIdx : Nat
  markedFrame : Nat
deriving DecidableEq, Repr

/-- Combined state of the render loop: the `Device` frame pacer
(`render_stage`, `current_frame`, the fence ring `sync_queue_submit`) together
with the `Objects` arena and its deferred-destroy queue.  `freed` is the log
of resource identities physically freed so far, and `inFlight` is a ghost
counter of frames submitted but not yet fence-signaled. -/
structure Engine where
  renderStage : Bool
  currentFrame : Nat
  fences : List FenceSt
  slots : List ResSlot
  destroyQueue : List DestroyEntry
  freed : List Nat
  inFlight : Nat
deriving DecidableEq, Repr

/-- Initial state after `Tegne::new` / `Device::new`: stage `Before`,
frame index 0, `IN_FLIGHT_FRAME_COUNT` fences created signaled. -/
def engineInit : Engine :=
  { renderStage := false
    currentFrame := 0
    fences := [.signaled, .signaled]
    slots := []
    destroyQueue := []
    freed := []
    inFlight := 0 }

/-- Bump the generation of every slot owning an entry of `toFree`
(indexed recursion over the slot list, starting at index `i`). -/
def bumpSlots (toFree : List DestroyEntry) : Nat → List ResSlot → List ResSlot
  | _, [] => []
  | i, r :: rest =>
      (if toFree.any (fun e => e.slotIdx == i) then { r with gen := r.gen + 1 } else r)
        :: bumpSlots toFree (i + 1) rest

/-- Modelled from the spec: `Objects::clean_unused(image_uniform, frame)`
(`objects/mod.rs` is not available; §4.3 of the spec): every queued destroy
entry whose marked frame index equals the frame index just advanced to —
whose fence has therefore been waited on again — is physically freed, and its
generation of its slot is incremented. -/
def cleanUnused (frame : Nat) (s : Engine) : Engine :=
  let toFree := s.destroyQueue.filter (fun e => e.markedFrame == frame)
  { s with
    destroyQueue := s.destroyQueue.filter (fun e => !(e.markedFrame == frame))
    slots := bumpSlots toFree 0 s.slots
    freed := s.freed ++ toFree.map (fun e => e.resId) }

/-- Modelled from the spec: `Objects::add_*` (§4.3): insert into a free slot
(one holding no value and not pending deferred destruction) or grow storage;
the handle returned is immediately valid. -/
def addResource (s : Engine) (payload : Nat) : Engine × Handle :=
  match s.slots.findIdx? (fun r => r.value == none) with
  | some i =>
      if s.destroyQueue.any (fun e => e.slotIdx == i) then
        ({ s with slots := s.slots ++ [{ value := some payload, gen := 0 }] },
         { slotIdx := s.slots.length, gen := 0 })
      else
        let g := (s.slots.getD i ⟨none, 0⟩).gen
        ({ s with slots := s.slots.set i { value := some payload, gen := g } },
         { slotIdx := i, gen := g })
  | none =>
      ({ s with slots := s.slots ++ [{ value := some payload, gen := 0 }] },
       { slotIdx := s.slots.length, gen := 0 })

/-- Modelled from the spec: `Objects::remove` (§4.3): the slot of a valid handle: its
value becomes absent immediately and the resource is enqueued for deferred
destruction tagged with the current frame index; removing a stale handle is a
no-op. -/
def removeResource (s : Engine) (h : Handle) : Engine :=
  match s.slots.get? h.slotIdx with
  | some r =>
      if r.gen = h.gen then
        match r.value with
        | some v =>
            { s with
              slots := s.slots.set h.slotIdx { r with value := none }
              destroyQueue := s.destroyQueue ++
                [{ resId := v, slotIdx := h.slotIdx, markedFrame := s.currentFrame }] }
        | none => s
      else s
  | none => s

/-- The events of the render loop.  `gpuSignal i` is the GPU signaling fence
`i` after completing the submitted frame; the rest are the `Tegne` public
calls embedded from `src/tegne/src/tegne.rs`. -/
inductive Ev
  | gpuSignal (i : Nat)
  | beginDraw
  | endDraw
  | drawCall (onWindow : Bool)
  | addRes (payload : Nat)
  | removeRes (h : Handle)
deriving DecidableEq, Repr

/-- Outcome of one event: a new state, a blocking wait (fence not yet
signaled — `fence::wait_for` blocks the thread), or a panic. -/
inductive Outcome
  | ok (s : Engine)
  | blockedWait
  | panicked
deriving DecidableEq, Repr

/-- One step of the system.

* `beginDraw` embeds `Tegne::begin_draw` (tegne.rs lines 222–238): panic if
  the stage is already `During`; otherwise `Device::next_frame`
  (device/mod.rs lines 140–154) computes `current = (current + 1) %
  IN_FLIGHT_FRAME_COUNT`, waits for the fence of that slot (blocking until it is
  signaled), resets it, stores the new index; then
  `Objects::clean_unused(current)` runs once with the just-advanced index.
* `endDraw` embeds `Tegne::end_draw` (lines 240–249): panic if the stage is
  `Before`; otherwise `Device::submit` passes the fence of the current slot to
  `queue_submit`, arming it to be signaled by the GPU, and `present` runs.
* `drawCall` embeds `Tegne::draw` / `Tegne::draw_on_window` (lines 251–309):
  panic if the stage is `Before`.
* `addRes` / `removeRes` are arena operations; `gpuSignal` is the GPU
  completing a submitted frame. -/
def exec (s : Engine) : Ev → Outcome
  | .gpuSignal i =>
      if s.fences.getD i .unsignaled = .pendingGpu then
        .ok { s with fences := s.fences.set i .signaled, inFlight := s.inFlight - 1 }
      else .blockedWait
  | .beginDraw =>
      if s.renderStage then .panicked
      else
        let nxt := (s.currentFrame + 1) % IN_FLIGHT_FRAME_COUNT
        if s.fences.getD nxt .unsignaled = .signaled then
          .ok (cleanUnused nxt
            { s with
              renderStage := true
              fences := s.fences.set nxt .unsignaled
              currentFrame := nxt })
        else .blockedWait
  | .endDraw =>
      if s.renderStage then
        .ok { s with
              renderStage := false
              fences := s.fences.set s.currentFrame .pendingGpu
              inFlight := s.inFlight + 1 }
      else .panicked
  | .drawCall _ =>
      if s.renderStage then .ok s else .panicked
  | .addRes p => .ok (addResource s p).1
  | .removeRes h => .ok (removeResource s h)

/-- Reachable states of the render loop. -/
inductive Reach : Engine → Prop
  | init : Reach engineInit
  | step {s s' : Engine} (e : Ev) : Reach s → exec s e = .ok s' → Reach s'

/-- Run a list of events, skipping blocked or panicking events, and count the
`beginDraw` events that actually executed. -/
def runPaced : Engine → List Ev → Engine × Nat
  | s, [] => (s, 0)
  | s, e :: t =>
      match exec s e with
      | .ok s' =>
          let r := runPaced s' t
          (r.1, r.2 + (if e = .beginDraw then 1 else 0))
      | _ => runPaced s t

/-- Run a list of events, skipping blocked or panicking events. -/
def runT (s : Engine) (t : List Ev) : Engine := (runPaced s t).1

/-- Number of fences currently armed and not yet signaled by the GPU:
the frames submitted but not yet fence-signaled. -/
def pendingCount : List FenceSt → Nat
  | [] => 0
  | f :: t => (if f = .pendingGpu then 1 else 0) + pendingCount t

/-- The state invariant of the render loop: two fences, frame index in
range, the fence of the current slot is reset while a bracket is open, the ghost
in-flight counter counts pending fences, and queued destroy entries carry
in-range marked frame indices. -/
def EngineInv (s : Engine) : Prop :=
  s.fences.length = 2 ∧
  s.currentFrame < 2 ∧
  (s.renderStage = true → s.fences.getD s.currentFrame .unsignaled = .unsignaled) ∧
  s.inFlight = pendingCount s.fences ∧
  (∀ x ∈ s.destroyQueue, x.markedFrame < 2)

instance (s : Engine) : Decidable (EngineInv s) := by
  unfold EngineInv; infer_instance

/-- Modelled from the spec: `Objects::with_material` / `Objects::with_mesh`
(`objects/mod.rs` is not available; forwarded unchanged by
`Tegne::with_material` / `Tegne::with_mesh`, tegne.rs lines 354–366; spec
§4.3): look up the slot the handle points at; on a generation match apply the closure to
the payload (`FnOnce(&mut T) -> R`, modelled as a payload transformer whose
result is returned) and return `Some`; a stale handle returns `None` and
leaves the state untouched. -/
def withResource (s : Engine) (h : Handle) (f : Nat → Nat) : Option Nat × Engine :=
  match s.slots.get? h.slotIdx with
  | some r =>
      if r.gen = h.gen then
        match r.value with
        | some v =>
            (some (f v),
             { s with slots := s.slots.set h.slotIdx { r with value := some (f v) } })
        | none => (none, s)
      else (none, s)
  | none => (none, s)

/-- Modelled from the spec: the `ImageUniform` bindless descriptor table
(`pipeline/image_uniform` is not available; spec §2, §4.4): an append-only
list of image views with a hard capacity ceiling fixed at construction. -/
structure DescriptorTable where
  views : List Nat
  capacity : Nat
deriving DecidableEq, Repr

/-- `ImageUniform::image_count` as used by `Framebuffer::from_images`. -/
def DescriptorTable.imageCount (t : DescriptorTable) : Nat := t.views.length

inductive DescriptorErr
  | capacityExceeded
deriving DecidableEq, Repr

/-- Modelled from the spec: `DescriptorTable.add(image_view) -> index`
(§4.4): appends the view, returning the index it now occupies; fails with
`CapacityExceeded` once the fixed bindless limit is reached. -/
def DescriptorTable.add (t : DescriptorTable) (view : Nat) :
    Except DescriptorErr (Nat × DescriptorTable) :=
  if t.views.length < t.capacity then
    .ok (t.views.length, { t with views := t.views ++ [view] })
  else .error .capacityExceeded

inductive TableOp
  | addView (view : Nat)
  | removeBacking
deriving DecidableEq, Repr

/-- Apply one table-affecting event: an `add`, or the removal of a backing
resource, which per the spec (§3: indices are never reused, the table only
grows) leaves the table unchanged. -/
def applyTableOp (t : DescriptorTable) : TableOp → DescriptorTable
  | .addView v =>
      match t.add v with
      | .ok p => p.2
      | .error _ => t
  | .removeBacking => t

def applyTableOps (t : DescriptorTable) (ops : List TableOp) : DescriptorTable :=
  ops.foldl applyTableOp t

/-- Descriptor index assignment in `Framebuffer::from_images`
(src/tegne/src/surface/framebuffer.rs lines 158–159): `shader_index` is the
image count of the table at the moment of the call, then the view of the shader image
is added. -/
def framebufferFromImages (t : DescriptorTable) (shaderImageView : Nat) :
    Nat × DescriptorTable :=
  (t.imageCount, applyTableOp t (.addView shaderImageView))

/-- Modelled from the spec: `tegne_math::Vector2` (math primitives are
external collaborators per §1); `f32` components are modelled as exact
rationals.  Rust `Default` is the zero vector. -/
structure Vector2 where
  x : Rat
  y : Rat
deriving DecidableEq, Repr

instance : Inhabited Vector2 := ⟨⟨0, 0⟩⟩

/-- Modelled from the spec: `tegne_math::Vector3`, components as exact
rationals. -/
structure Vector3 where
  x : Rat
  y : Rat
  z : Rat
deriving DecidableEq, Repr

instance : Inhabited Vector3 := ⟨⟨0, 0, 0⟩⟩

def Vector3.sub (a b : Vector3) : Vector3 := ⟨a.x - b.x, a.y - b.y, a.z - b.z⟩

def Vector3.add (a b : Vector3) : Vector3 := ⟨a.x + b.x, a.y + b.y, a.z + b.z⟩

def Vector3.cross (a b : Vector3) : Vector3 :=
  ⟨a.y * b.z - a.z * b.y, a.z * b.x - a.x * b.z, a.x * b.y - a.y * b.x⟩

/-- Rational stand-in for `f32::sqrt`: exact on perfect squares (the only
places the theorems below evaluate it). -/
def ratSqrt (q : Rat) : Rat := (Nat.sqrt q.num.toNat : Rat) / (Nat.sqrt q.den : Rat)

def Vector3.magSq (v : Vector3) : Rat := v.x * v.x + v.y * v.y + v.z * v.z

/-- Modelled from the spec: `Vector3::unit` — the vector scaled to length 1
(the zero vector is returned unchanged; `f32` would produce NaN there). -/
def Vector3.unit (v : Vector3) : Vector3 :=
  let m := ratSqrt v.magSq
  if m = 0 then ⟨0, 0, 0⟩ else ⟨v.x / m, v.y / m, v.z / m⟩

/-- `MeshOptions` (src/tegne/src/mesh/mod.rs lines 28–34), slices as lists,
`u32` indices as naturals. -/
structure MeshOptions where
  vertices : List Vector3
  uvs : List Vector2
  normals : List Vector3
  triangles : List Nat
deriving DecidableEq, Repr

/-- The CPU-side fields of `Mesh` built by `Mesh::new`, plus the element
counts of the two `DynamicBuffer` GPU allocations it makes. -/
structure MeshModel where
  vertices : List Vector3
  uvs : List Vector2
  normals : List Vector3
  triangles : List Nat
  vertexBufferLen : Nat
  indexBufferLen : Nat
  triangleCount : Nat
deriving DecidableEq, Repr

/-- The mesh error kinds raised by `Mesh::new` (crate::error::ErrorKind). -/
inductive MeshErrorKind
  | noVertices
  | noTriangles
  | tooManyUvs
  | tooManyNormals
deriving DecidableEq, Repr

inductive MeshOutcome
  | ok (m : MeshModel)
  | err (e : MeshErrorKind)
  | panicked
deriving DecidableEq, Repr

/-- Rust `slice::chunks(3)`: blocks of three, the last one possibly
shorter. -/
def chunks3 : List Nat → List (List Nat)
  | [] => []
  | a :: b :: c :: rest => [a, b, c] :: chunks3 rest
  | l => [l]

/-- One iteration of the smooth-normal loop (mesh/mod.rs lines 69–80):
`tri[0] / tri[1] / tri[2]` and the `vertices[_]` / `normals[_]` indexing
panic when out of bounds — modelled as `none`. -/
def accumTriangle (vertices : List Vector3) (normals : List Vector3)
    (tri : List Nat) : Option (List Vector3) := do
  let a ← tri.get? 0
  let b ← tri.get? 1
  let c ← tri.get? 2
  let vtxA ← vertices.get? a
  let vtxB ← vertices.get? b
  let vtxC ← vertices.get? c
  let n := (vtxB.sub vtxA).cross (vtxC.sub vtxA)
  let na ← normals.get? a
  let upd1 := normals.set a (na.add n)
  let nb ← upd1.get? b
  let upd2 := upd1.set b (nb.add n)
  let nc ← upd2.get? c
  pure (upd2.set c (nc.add n))

def accumTriangles (vertices : List Vector3) :
    List (List Nat) → List Vector3 → Option (List Vector3)
  | [], normals => some normals
  | tri :: rest, normals =>
      match accumTriangle vertices normals tri with
      | some normals' => accumTriangles vertices rest normals'
      | none => none

/-- The smooth-normal computation of `Mesh::new` (mesh/mod.rs lines 67–84):
accumulate the cross-product normal of each triangle onto its three vertices,
then normalize every vertex normal; `none` models an indexing panic. -/
def smoothNormals (vertices : List Vector3) (triangles : List Nat) :
    Option (List Vector3) :=
  (accumTriangles vertices (chunks3 triangles)
      (List.replicate vertices.length default)).map (List.map Vector3.unit)

/-- `Mesh::new` (src/tegne/src/mesh/mod.rs lines 37–97), paired with the
list of `DynamicBuffer::new` allocation element counts it performed. -/
def meshNewFull (o : MeshOptions) : MeshOutcome × List Nat :=
  if o.vertices.isEmpty then (.err .noVertices, [])
  else if o.triangles.isEmpty then (.err .noTriangles, [])
  else
    let vertexCount := o.vertices.length
    let indexCount := o.triangles.length
    if vertexCount < o.uvs.length then (.err .tooManyUvs, [])
    else if vertexCount < o.normals.length then (.err .tooManyNormals, [])
    else
      let allocations := [vertexCount, indexCount]
      let uvs := o.uvs ++ List.replicate (vertexCount - o.uvs.length) default
      let normals0 := o.normals ++ List.replicate (vertexCount - o.normals.length) default
      let normalsRes :=
        if o.normals.isEmpty then smoothNormals o.vertices o.triangles
        else some normals0
      match normalsRes with
      | none => (.panicked, allocations)
      | some normals =>
          (.ok { vertices := o.vertices
                 uvs := uvs
                 normals := normals
                 triangles := o.triangles
                 vertexBufferLen := vertexCount
                 indexBufferLen := indexCount
                 triangleCount := indexCount / 3 }, allocations)

def meshNew (o : MeshOptions) : MeshOutcome := (meshNewFull o).1

/-- Read a little-endian fixed-width `u64` (bincode 1.x default integer
encoding) from a byte list. -/
def readU64le (l : List Nat) : Option (Nat × List Nat) :=
  match l with
  | b0 :: b1 :: b2 :: b3 :: b4 :: b5 :: b6 :: b7 :: rest =>
      some (b0 + 256 * (b1 + 256 * (b2 + 256 * (b3 + 256 *
        (b4 + 256 * (b5 + 256 * (b6 + 256 * b7)))))), rest)
  | _ => none

def readBytes : Nat → List Nat → Option (List Nat × List Nat)
  | 0, l => some ([], l)
  | _ + 1, [] => none
  | n + 1, b :: rest => (readBytes n rest).map (fun p => (b :: p.1, p.2))

/-- `ShaderFile` (src/draw-it/src/pipeline/shader.rs lines 33–37): the
two-field shader container record. -/
structure ShaderFile where
  vert : List Nat
  frag : List Nat
deriving DecidableEq, Repr

/-- `bincode::deserialize::<ShaderFile>` (bincode 1.x legacy config:
fixed-width little-endian lengths, trailing bytes permitted): a `Vec<u8>` is
a `u64` length followed by that many bytes; `none` is a deserialization
error. -/
def deserializeShaderFile (source : List Nat) : Option ShaderFile := do
  let (vlen, r1) ← readU64le source
  let (vert, r2) ← readBytes vlen r1
  let (flen, r3) ← readU64le r2
  let (frag, _) ← readBytes flen r3
  pure { vert := vert, frag := frag }

inductive ShaderErr
  | deserialization
deriving DecidableEq, Repr

/-- The pipeline object built by a successful `Shader::new`. -/
structure ShaderModel where
  vertModule : List Nat
  fragModule : List Nat
deriving DecidableEq, Repr

/-- `Shader::new` (src/draw-it/src/pipeline/shader.rs lines 40–190):
`bincode::deserialize(source)?` returns the deserialization failure to the
immediate caller via `?`; on success the pipeline is created from the two
bytecode fields (the GPU calls, irrelevant to malformed input, are modelled
as succeeding). -/
def shaderNew (source : List Nat) : Except ShaderErr ShaderModel :=
  match deserializeShaderFile source with
  | none => .error .deserialization
  | some data => .ok { vertModule := data.vert, fragModule := data.frag }

inductive CheckOutcome (α : Type)
  | ok (a : α)
  | panicked
deriving DecidableEq, Repr

/-- The `check!` macro (src/tegne/src/tegne.rs lines 55–62): unwrap `Ok`,
panic (after logging) on `Err`. -/
def checkBang {ε α : Type} : Except ε α → CheckOutcome α
  | .ok a => .ok a
  | .error _ => .panicked

/-- `Tegne::create_shader` (tegne.rs lines 381–392): wraps `Shader::new` in
`check!`, so a failed creation panics instead of returning an error. -/
def tegneCreateShader (source : List Nat) : CheckOutcome ShaderModel :=
  checkBang (shaderNew source)

/-- Modelled from the spec: the window surface (window/surface is not
available); `Surface::resize` stores the new pixel size. -/
structure SurfaceM where
  width : Nat
  height : Nat
deriving DecidableEq, Repr

/-- Modelled from the spec: the swapchain (window/swapchain is not
available); `epoch` distinguishes successive swapchain incarnations. -/
structure SwapchainM where
  width : Nat
  height : Nat
  imageCount : Nat
  epoch : Nat
deriving DecidableEq, Repr

/-- A window framebuffer, tagged with the swapchain incarnation and image it
was built from. -/
structure FramebufferM where
  width : Nat
  height : Nat
  swapchainEpoch : Nat
  imageIndex : Nat
deriving DecidableEq, Repr

def SurfaceM.resize (_s : SurfaceM) (w h : Nat) : SurfaceM := ⟨w, h⟩

/-- Modelled from the spec: `Swapchain::recreate` builds a fresh swapchain
for the current size of the surface. -/
def SwapchainM.recreate (sc : SwapchainM) (surface : SurfaceM) : SwapchainM :=
  { width := surface.width
    height := surface.height
    imageCount := sc.imageCount
    epoch := sc.epoch + 1 }

/-- `Framebuffer::window` / `for_window`
(src/tegne/src/surface/framebuffer.rs lines 28–83): one framebuffer per
swapchain image, sized to the swapchain. -/
def framebufferWindow (sc : SwapchainM) : List FramebufferM :=
  (List.range sc.imageCount).map fun i =>
    { width := sc.width, height := sc.height, swapchainEpoch := sc.epoch, imageIndex := i }

/-- The collaborator calls `Tegne::resize` makes, in order. -/
inductive ResizeCall
  | waitForIdle
  | surfaceResize (w h : Nat)
  | swapchainRecreate
  | framebufferRebuild
deriving DecidableEq, Repr

/-- The `Tegne` fields relevant to `resize` (tegne.rs lines 64–80); fields
`resize` never touches are opaque tokens. -/
structure TegneM where
  renderStage : Bool
  surface : SurfaceM
  swapchain : SwapchainM
  windowFramebuffers : List FramebufferM
  objectsState : Nat
  imageUniformState : Nat
  gpuIndex : Nat
deriving DecidableEq, Repr

/-- `Tegne::resize` (tegne.rs lines 208–220): wait for full device idle,
resize the surface, recreate the swapchain, rebuild the window
framebuffers; returns the new state and the ordered collaborator calls. -/
def tegneResize (s : TegneM) (w h : Nat) : TegneM × List ResizeCall :=
  let surface2 := s.surface.resize w h
  let swapchain2 := s.swapchain.recreate surface2
  let fbs := framebufferWindow swapchain2
  ({ s with surface := surface2, swapchain := swapchain2, windowFramebuffers := fbs },
   [.waitForIdle, .surfaceResize w h, .swapchainRecreate, .framebufferRebuild])

theorem list_len_two {α : Type} {l : List α} (h : l.length = 2) :
    ∃ a b, l = [a, b] := by
  match l, h with
  | [a, b], _ => exact ⟨a, b, rfl⟩

theorem getD_pair {α : Type} (a b d : α) (i : Nat) :
    ([a, b].getD i d) = if i = 0 then a else if i = 1 then b else d := by
  match i with
  | 0 => rfl
  | 1 => rfl
  | n + 2 => simp [List.getD]

theorem set_pair {α : Type} (a b v : α) (i : Nat) :
    ([a, b].set i v) = if i = 0 then [v, b] else if i = 1 then [a, v] else [a, b] := by
  match i with
  | 0 => rfl
  | 1 => rfl
  | n + 2 => simp

theorem exec_ok_inv {s s' : Engine} {e : Ev} (hs : EngineInv s)
    (h : exec s e = .ok s') : EngineInv s' := by
  obtain ⟨hlen, hcur, hstage, hghost, hmark⟩ := hs
  obtain ⟨a, b, hfe⟩ := list_len_two hlen
  have hc01 : s.currentFrame = 0 ∨ s.currentFrame = 1 := by omega
  cases e with
  | gpuSignal i =>
      simp only [exec] at h
      split at h
      case isFalse => exact absurd h (by simp)
      case isTrue hp =>
        cases h
        have hi : i = 0 ∨ i = 1 := by
          by_contra hcon
          push_neg at hcon
          have : i ≥ 2 := by omega
          rw [hfe, getD_pair] at hp
          simp [Nat.not_eq_zero_of_lt, hcon.1, hcon.2] at hp
        refine ⟨?_, hcur, ?_, ?_, hmark⟩
        · simp [hlen]
        · intro hrs
          have hcf := hstage hrs
          rcases hi with hi | hi <;> rcases hc01 with hc | hc <;>
            simp_all [hfe, getD_pair, set_pair, pendingCount]
        · rw [hfe] at hp hghost ⊢
          rcases hi with hi | hi <;> subst hi <;>
            rw [getD_pair] at hp <;> simp at hp <;>
            simp [set_pair, pendingCount, hp] at hghost ⊢ <;>
            cases a <;> cases b <;> simp_all [pendingCount]
  | beginDraw =>
      simp only [exec] at h
      split at h
      case isTrue => exact absurd h (by simp)
      case isFalse hrs =>
        split at h
        case isFalse => exact absurd h (by simp)
        case isTrue hsig =>
          cases h
          have hnx : (s.currentFrame + 1) % IN_FLIGHT_FRAME_COUNT < 2 :=
            Nat.mod_lt _ (by decide)
          refine ⟨?_, ?_, ?_, ?_, ?_⟩
          · simp [cleanUnused, hlen]
          · simpa [cleanUnused] using hnx
          · intro _
            rcases hc01 with hc | hc <;>
              simp [cleanUnused, hfe, hc, IN_FLIGHT_FRAME_COUNT, set_pair, getD_pair]
          · rw [hfe] at hsig hghost ⊢
            rcases hc01 with hc | hc <;>
              rw [hc] at hsig ⊢ <;>
              simp [IN_FLIGHT_FRAME_COUNT, getD_pair] at hsig <;>
              simp [cleanUnused, IN_FLIGHT_FRAME_COUNT, set_pair, pendingCount,
                hsig, hghost] <;>
              cases a <;> cases b <;> simp_all [pendingCount]
          · intro x hx
            simp only [cleanUnused, List.mem_filter] at hx
            exact hmark x hx.1
  | endDraw =>
      simp only [exec] at h
      split at h
      case isFalse => exact absurd h (by simp)
      case isTrue hrs =>
        cases h
        have hcf := hstage hrs
        refine ⟨by simp [hlen], hcur, by simp, ?_, hmark⟩
        rw [hfe] at hcf hghost ⊢
        rcases hc01 with hc | hc <;> rw [hc] at hcf ⊢ <;>
          rw [getD_pair] at hcf <;> simp at hcf <;>
          simp [set_pair, pendingCount, hcf, hghost] <;>
          cases a <;> cases b <;> simp_all [pendingCount]
  | drawCall w =>
      simp only [exec] at h
      split at h
      case isFalse => exact absurd h (by simp)
      case isTrue hrs =>
        cases h
        exact ⟨hlen, hcur, hstage, hghost, hmark⟩
  | addRes p =>
      simp only [exec] at h
      cases h
      unfold addResource
      split
      case h_1 i hfind =>
        split
        case isTrue => exact ⟨hlen, hcur, hstage, hghost, hmark⟩
        case isFalse => exact ⟨hlen, hcur, hstage, hghost, hmark⟩
      case h_2 => exact ⟨hlen, hcur, hstage, hghost, hmark⟩
  | removeRes hd =>
      simp only [exec] at h
      cases h
      unfold removeResource
      split
      case h_2 => exact ⟨hlen, hcur, hstage, hghost, hmark⟩
      case h_1 r hget =>
        split
        case isFalse => exact ⟨hlen, hcur, hstage, hghost, hmark⟩
        case isTrue =>
          split
          case h_2 => exact ⟨hlen, hcur, hstage, hghost, hmark⟩
          case h_1 v hv =>
            refine ⟨hlen, hcur, hstage, hghost, ?_⟩
            intro x hx
            simp only [List.mem_append, List.mem_singleton] at hx
            rcases hx with hx | hx
            · exact hmark x hx
            · subst hx; exact hcur

theorem reach_inv {s : Engine} (h : Reach s) : EngineInv s := by
  induction h with
  | init => decide
  | step e _ hstep ih => exact exec_ok_inv ih hstep

theorem exec_beginDraw_ok {s s' : Engine} (h : exec s .beginDraw = .ok s') :
    s.renderStage = false ∧
    s.fences.getD ((s.currentFrame + 1) % IN_FLIGHT_FRAME_COUNT) .unsignaled = .signaled ∧
    s' = cleanUnused ((s.currentFrame + 1) % IN_FLIGHT_FRAME_COUNT)
      { s with
        renderStage := true
        fences := s.fences.set ((s.currentFrame + 1) % IN_FLIGHT_FRAME_COUNT) .unsignaled
        currentFrame := (s.currentFrame + 1) % IN_FLIGHT_FRAME_COUNT } := by
  simp only [exec] at h
  split at h
  case isTrue => exact absurd h (by simp)
  case isFalse hrs =>
    split at h
    case isFalse => exact absurd h (by simp)
    case isTrue hsig =>
      cases h
      exact ⟨by simpa using hrs, hsig, rfl⟩

theorem exec_beginDraw_blocked {s : Engine} (hrs : s.renderStage = false)
    (hsig : s.fences.getD ((s.currentFrame + 1) % IN_FLIGHT_FRAME_COUNT) .unsignaled
      ≠ .signaled) :
    exec s .beginDraw = .blockedWait := by
  simp only [exec]
  rw [if_neg (by simp [hrs])]
  rw [if_neg hsig]

theorem exec_endDraw_ok {s s' : Engine} (h : exec s .endDraw = .ok s') :
    s.renderStage = true ∧
    s' = { s with
           renderStage := false
           fences := s.fences.set s.currentFrame .pendingGpu
           inFlight := s.inFlight + 1 } := by
  simp only [exec] at h
  split at h
  case isFalse => exact absurd h (by simp)
  case isTrue hrs =>
    cases h
    exact ⟨hrs, rfl⟩

theorem exec_nonBegin_preserves {s s' : Engine} {e : Ev} (hne : e ≠ .beginDraw)
    (h : exec s e = .ok s') :
    s'.currentFrame = s.currentFrame ∧ s'.freed = s.freed ∧
    ∀ x ∈ s.destroyQueue, x ∈ s'.destroyQueue := by
  cases e with
  | beginDraw => exact absurd rfl hne
  | gpuSignal i =>
      simp only [exec] at h
      split at h
      case isFalse => exact absurd h (by simp)
      case isTrue => cases h; exact ⟨rfl, rfl, fun x hx => hx⟩
  | endDraw =>
      simp only [exec] at h
      split at h
      case isFalse => exact absurd h (by simp)
      case isTrue => cases h; exact ⟨rfl, rfl, fun x hx => hx⟩
  | drawCall w =>
      simp only [exec] at h
      split at h
      case isFalse => exact absurd h (by simp)
      case isTrue => cases h; exact ⟨rfl, rfl, fun x hx => hx⟩
  | addRes p =>
      simp only [exec] at h
      cases h
      unfold addResource
      split
      case h_1 i hfind =>
        split
        case isTrue => exact ⟨rfl, rfl, fun x hx => hx⟩
        case isFalse => exact ⟨rfl, rfl, fun x hx => hx⟩
      case h_2 => exact ⟨rfl, rfl, fun x hx => hx⟩
  | removeRes hd =>
      simp only [exec] at h
      cases h
      unfold removeResource
      split
      case h_2 => exact ⟨rfl, rfl, fun x hx => hx⟩
      case h_1 r hget =>
        split
        case isFalse => exact ⟨rfl, rfl, fun x hx => hx⟩
        case isTrue =>
          split
          case h_2 => exact ⟨rfl, rfl, fun x hx => hx⟩
          case h_1 v hv =>
            exact ⟨rfl, rfl, fun x hx => List.mem_append_left _ hx⟩

theorem freed_only_by_beginDraw {s s' : Engine} {e : Ev} {x : DestroyEntry}
    (h : exec s e = .ok s') (hx : x ∈ s.destroyQueue) (hx' : x ∉ s'.destroyQueue) :
    e = .beginDraw := by
  by_contra hne
  obtain ⟨-, -, hq⟩ := exec_nonBegin_preserves hne h
  exact hx' (hq x hx)

theorem beginDraw_frees_iff {s s' : Engine} (h : exec s .beginDraw = .ok s')
    {x : DestroyEntry} (hx : x ∈ s.destroyQueue) :
    (x ∉ s'.destroyQueue ↔ x.markedFrame = s'.currentFrame) := by
  obtain ⟨-, -, hs'⟩ := exec_beginDraw_ok h
  subst hs'
  simp [cleanUnused, List.mem_filter, hx]

theorem bumpSlots_length (toFree : List DestroyEntry) (i : Nat) (sl : List ResSlot) :
    (bumpSlots toFree i sl).length = sl.length := by
  induction sl generalizing i with
  | nil => rfl
  | cons r rest ih => simp [bumpSlots, ih]

theorem bumpSlots_getD (toFree : List DestroyEntry) (sl : List ResSlot) (d : ResSlot) :
    ∀ (i j : Nat), j < sl.length →
    (bumpSlots toFree i sl).getD j d =
      (if toFree.any (fun e => e.slotIdx == i + j)
       then { sl.getD j d with gen := (sl.getD j d).gen + 1 }
       else sl.getD j d) := by
  induction sl with
  | nil => intro i j hj; simp at hj
  | cons r rest ih =>
      intro i j hj
      cases j with
      | zero => simp [bumpSlots, List.getD]
      | succ j' =>
          have hrec := ih (i + 1) j' (by simpa using Nat.lt_of_succ_lt_succ hj)
          have harith : i + 1 + j' = i + (j' + 1) := by omega
          rw [harith] at hrec
          simpa [bumpSlots, List.getD] using hrec

theorem runPaced_nil (s : Engine) : runPaced s [] = (s, 0) := rfl

theorem runPaced_cons_ok {s s' : Engine} {e : Ev} (t : List Ev)
    (h : exec s e = .ok s') :
    runPaced s (e :: t) =
      ((runPaced s' t).1, (runPaced s' t).2 + (if e = .beginDraw then 1 else 0)) := by
  simp [runPaced, h]

theorem runPaced_cons_blocked {s : Engine} {e : Ev} (t : List Ev)
    (h : exec s e = .blockedWait) :
    runPaced s (e :: t) = runPaced s t := by
  simp [runPaced, h]

theorem runPaced_cons_panicked {s : Engine} {e : Ev} (t : List Ev)
    (h : exec s e = .panicked) :
    runPaced s (e :: t) = runPaced s t := by
  simp [runPaced, h]

theorem notfreed_while_away {x : DestroyEntry} :
    ∀ (t : List Ev) (s : Engine), EngineInv s → x ∈ s.destroyQueue →
      s.currentFrame ≠ x.markedFrame →
      x ∉ (runPaced s t).1.destroyQueue → 1 ≤ (runPaced s t).2 := by
  intro t
  induction t with
  | nil => intro s _ hx _ hfin; exact absurd hx hfin
  | cons e t ih =>
      intro s hinv hx hcur hfin
      rcases hE : exec s e with s' | _ | _
      · rw [runPaced_cons_ok t hE] at hfin ⊢
        by_cases hb : e = .beginDraw
        · simp [hb]
        · obtain ⟨hcur', -, hq⟩ := exec_nonBegin_preserves hb hE
          have := ih s' (exec_ok_inv hinv hE) (hq x hx) (hcur' ▸ hcur) hfin
          omega
      · rw [runPaced_cons_blocked t hE] at hfin ⊢
        exact ih s hinv hx hcur hfin
      · rw [runPaced_cons_panicked t hE] at hfin ⊢
        exact ih s hinv hx hcur hfin

theorem notfreed_before_two_begins {x : DestroyEntry} :
    ∀ (t : List Ev) (s : Engine), EngineInv s → x ∈ s.destroyQueue →
      s.currentFrame = x.markedFrame →
      x ∉ (runPaced s t).1.destroyQueue → 2 ≤ (runPaced s t).2 := by
  intro t
  induction t with
  | nil => intro s _ hx _ hfin; exact absurd hx hfin
  | cons e t ih =>
      intro s hinv hx hcur hfin
      rcases hE : exec s e with s' | _ | _
      · rw [runPaced_cons_ok t hE] at hfin ⊢
        by_cases hb : e = .beginDraw
        · subst hb
          obtain ⟨-, -, hs'⟩ := exec_beginDraw_ok hE
          have hclt : s.currentFrame < 2 := hinv.2.1
          have hcur' : s'.currentFrame =
              (s.currentFrame + 1) % IN_FLIGHT_FRAME_COUNT := by
            rw [hs']; rfl
          have hne : s'.currentFrame ≠ x.markedFrame := by
            rw [hcur', ← hcur]
            have : s.currentFrame = 0 ∨ s.currentFrame = 1 := by omega
            rcases this with hc | hc <;> rw [hc] <;> decide
          have hxq : x ∈ s'.destroyQueue := by
            by_contra hout
            exact hne (((beginDraw_frees_iff hE hx).1 hout) ▸ rfl)
          have := notfreed_while_away t s' (exec_ok_inv hinv hE) hxq hne hfin
          rw [if_pos rfl]
          omega
        · obtain ⟨hcur', -, hq⟩ := exec_nonBegin_preserves hb hE
          have := ih s' (exec_ok_inv hinv hE) (hq x hx) (by rw [hcur', hcur]) hfin
          omega
      · rw [runPaced_cons_blocked t hE] at hfin ⊢
        exact ih s hinv hx hcur hfin
      · rw [runPaced_cons_panicked t hE] at hfin ⊢
        exact ih s hinv hx hcur hfin

theorem beginDraw_cleans_once {s s' : Engine} (h : exec s .beginDraw = .ok s') :
    s'.currentFrame = (s.currentFrame + 1) % IN_FLIGHT_FRAME_COUNT ∧
    s'.destroyQueue = s.destroyQueue.filter
      (fun e => !(e.markedFrame == (s.currentFrame + 1) % IN_FLIGHT_FRAME_COUNT)) ∧
    s'.freed = s.freed ++ ((s.destroyQueue.filter
      (fun e => e.markedFrame == (s.currentFrame + 1) % IN_FLIGHT_FRAME_COUNT)).map
        (fun e => e.resId)) := by
  obtain ⟨-, -, hs'⟩ := exec_beginDraw_ok h
  subst hs'
  exact ⟨rfl, rfl, rfl⟩

theorem beginDraw_bumps_gen {s s' : Engine} (h : exec s .beginDraw = .ok s')
    {x : DestroyEntry} (hx : x ∈ s.destroyQueue)
    (hmk : x.markedFrame = (s.currentFrame + 1) % IN_FLIGHT_FRAME_COUNT)
    (hidx : x.slotIdx < s.slots.length) (d : ResSlot) :
    (s'.slots.getD x.slotIdx d).gen = (s.slots.getD x.slotIdx d).gen + 1 := by
  obtain ⟨-, -, hs'⟩ := exec_beginDraw_ok h
  subst hs'
  have hb := bumpSlots_getD
    (s.destroyQueue.filter
      (fun e => e.markedFrame == (s.currentFrame + 1) % IN_FLIGHT_FRAME_COUNT))
    s.slots d 0 x.slotIdx hidx
  have hany : (s.destroyQueue.filter
      (fun e => e.markedFrame == (s.currentFrame + 1) % IN_FLIGHT_FRAME_COUNT)).any
        (fun e => e.slotIdx == 0 + x.slotIdx) = true := by
    rw [List.any_eq_true]
    refine ⟨x, ?_, by simp⟩
    simp [List.mem_filter, hx, hmk]
  have hslots : (cleanUnused ((s.currentFrame + 1) % IN_FLIGHT_FRAME_COUNT)
      { s with
        renderStage := true
        fences := s.fences.set ((s.currentFrame + 1) % IN_FLIGHT_FRAME_COUNT) .unsignaled
        currentFrame := (s.currentFrame + 1) % IN_FLIGHT_FRAME_COUNT }).slots
      = bumpSlots (s.destroyQueue.filter
          (fun e => e.markedFrame == (s.currentFrame + 1) % IN_FLIGHT_FRAME_COUNT))
          0 s.slots := rfl
  rw [hslots, hb, if_pos hany]

theorem addResource_fences (s : Engine) (p : Nat) :
    (addResource s p).1.fences = s.fences := by
  unfold addResource
  split
  case h_1 => split <;> rfl
  case h_2 => rfl

theorem removeResource_fences (s : Engine) (hd : Handle) :
    (removeResource s hd).fences = s.fences := by
  unfold removeResource
  split
  case h_2 => rfl
  case h_1 =>
    split
    case isFalse => rfl
    case isTrue => split <;> rfl

theorem beginDraw_panicked_iff (s : Engine) :
    exec s .beginDraw = .panicked ↔ s.renderStage = true := by
  simp only [exec]
  split
  case isTrue h => simpa using h
  case isFalse h =>
    split <;> simp_all

theorem endDraw_panicked_iff (s : Engine) :
    exec s .endDraw = .panicked ↔ s.renderStage = false := by
  simp only [exec]
  split
  case isTrue h => simp_all
  case isFalse h => simp_all

theorem drawCall_panicked_iff (s : Engine) (w : Bool) :
    exec s (.drawCall w) = .panicked ↔ s.renderStage = false := by
  simp only [exec]
  split
  case isTrue h => simp_all
  case isFalse h => simp_all

theorem drawCall_ok_of_during (s : Engine) (w : Bool)
    (h : s.renderStage = true) : exec s (.drawCall w) = .ok s := by
  simp only [exec]
  rw [if_pos h]

theorem fence_reset_only_by_beginDraw {s s' : Engine} {e : Ev} {i : Nat}
    (hlen : s.fences.length = 2)
    (h : exec s e = .ok s')
    (hbefore : s.fences.getD i .unsignaled ≠ .unsignaled)
    (hafter : s'.fences.getD i .unsignaled = .unsignaled) :
    e = .beginDraw ∧ i = (s.currentFrame + 1) % IN_FLIGHT_FRAME_COUNT := by
  obtain ⟨a, b, hfe⟩ := list_len_two hlen
  have hi : i = 0 ∨ i = 1 := by
    by_contra hcon
    push_neg at hcon
    rw [hfe, getD_pair] at hbefore
    simp [hcon.1, hcon.2] at hbefore
  cases e with
  | beginDraw =>
      obtain ⟨-, hsig, hs'⟩ := exec_beginDraw_ok h
      refine ⟨rfl, ?_⟩
      have hf : s'.fences =
          s.fences.set ((s.currentFrame + 1) % IN_FLIGHT_FRAME_COUNT) .unsignaled := by
        rw [hs']; rfl
      by_contra hne
      rw [hf, hfe, set_pair] at hafter
      rw [hfe, getD_pair] at hbefore
      have hnx : (s.currentFrame + 1) % IN_FLIGHT_FRAME_COUNT = 0 ∨
          (s.currentFrame + 1) % IN_FLIGHT_FRAME_COUNT = 1 := by
        have : (s.currentFrame + 1) % IN_FLIGHT_FRAME_COUNT < 2 :=
          Nat.mod_lt _ (by decide)
        omega
      rcases hi with hi | hi <;> subst hi <;> rcases hnx with hnx | hnx <;>
        simp_all [getD_pair]
  | gpuSignal j =>
      exfalso
      simp only [exec] at h
      split at h
      case isFalse => exact absurd h (by simp)
      case isTrue hp =>
        cases h
        simp only [hfe] at hbefore hafter
        rw [set_pair] at hafter
        rcases hi with hi | hi <;> subst hi <;>
          by_cases hj0 : j = 0 <;> by_cases hj1 : j = 1 <;>
            simp_all [getD_pair]
  | endDraw =>
      exfalso
      simp only [exec] at h
      split at h
      case isFalse => exact absurd h (by simp)
      case isTrue hrs =>
        cases h
        simp only [hfe] at hbefore hafter
        rw [set_pair] at hafter
        rcases hi with hi | hi <;> subst hi <;>
          by_cases hc0 : s.currentFrame = 0 <;> by_cases hc1 : s.currentFrame = 1 <;>
            simp_all [getD_pair]
  | drawCall w =>
      exfalso
      simp only [exec] at h
      split at h
      case isFalse => exact absurd h (by simp)
      case isTrue => cases h; exact hbefore hafter
  | addRes p =>
      exfalso
      simp only [exec] at h
      cases h
      rw [addResource_fences] at hafter
      exact hbefore hafter
  | removeRes hd =>
      exfalso
      simp only [exec] at h
      cases h
      rw [removeResource_fences] at hafter
      exact hbefore hafter

theorem pendingCount_le_length (l : List FenceSt) : pendingCount l ≤ l.length := by
  induction l with
  | nil => simp [pendingCount]
  | cons f t ih =>
      simp only [pendingCount, List.length_cons]
      split <;> omega

/-- C1: a resource removed while frame index `f` was current is not
physically freed by any later `clean_unused` until the fence of slot `f` has
signaled again — concretely, (i) an entry can only leave the destroy queue
during a `begin_draw` step whose wait observed the fence of the marked slot
of the entry signaled, which step advances the frame index to the marked slot,
physically frees the resource, and increments the generation of the slot;
(ii) every `begin_draw` runs `clean_unused` exactly once, with the frame
index the pacer just advanced to, freeing exactly the entries marked with
that index; (iii) no other operation frees anything; and (iv) from the state
in which the entry was enqueued (frame index = the marked index), at least
`IN_FLIGHT_FRAME_COUNT = 2` executed `begin_draw` steps are needed before
the entry can be freed. -/
theorem c1_deferred_destroy :
    (∀ (s s' : Engine) (e : Ev) (x : DestroyEntry),
        exec s e = .ok s' → x ∈ s.destroyQueue → x ∉ s'.destroyQueue →
          e = .beginDraw ∧
          s.fences.getD x.markedFrame .unsignaled = .signaled ∧
          s'.currentFrame = x.markedFrame ∧
          x.resId ∈ s'.freed ∧
          (x.slotIdx < s.slots.length →
            (s'.slots.getD x.slotIdx ⟨none, 0⟩).gen
              = (s.slots.getD x.slotIdx ⟨none, 0⟩).gen + 1))
  ∧ (∀ (s s' : Engine), exec s .beginDraw = .ok s' →
        s'.currentFrame = (s.currentFrame + 1) % IN_FLIGHT_FRAME_COUNT ∧
        s'.destroyQueue = s.destroyQueue.filter
          (fun e => !(e.markedFrame == s'.currentFrame)) ∧
        s'.freed = s.freed ++ ((s.destroyQueue.filter
          (fun e => e.markedFrame == s'.currentFrame)).map (fun e => e.resId)))
  ∧ (∀ (s s' : Engine) (e : Ev), e ≠ .beginDraw → exec s e = .ok s' →
        s'.freed = s.freed)
  ∧ (∀ (t : List Ev) (s : Engine) (x : DestroyEntry), Reach s →
        x ∈ s.destroyQueue → s.currentFrame = x.markedFrame →
        x ∉ (runPaced s t).1.destroyQueue → 2 ≤ (runPaced s t).2) := by
  refine ⟨?_, ?_, ?_, ?_⟩
  · intro s s' e x hok hx hx'
    have hb := freed_only_by_beginDraw hok hx hx'
    subst hb
    have hmk : x.markedFrame = s'.currentFrame := (beginDraw_frees_iff hok hx).1 hx'
    obtain ⟨hcur, hq, hf⟩ := beginDraw_cleans_once hok
    obtain ⟨-, hsig, -⟩ := exec_beginDraw_ok hok
    refine ⟨rfl, ?_, hmk.symm, ?_, ?_⟩
    · rw [hmk, hcur]; exact hsig
    · rw [hf]
      refine List.mem_append_right _ ?_
      exact List.mem_map_of_mem _ (by simp [List.mem_filter, hx, hmk, hcur])
    · intro hidx
      exact beginDraw_bumps_gen hok hx (hmk.trans hcur) hidx _
  · intro s s' hok
    obtain ⟨hcur, hq, hf⟩ := beginDraw_cleans_once hok
    exact ⟨hcur, by rw [hq, hcur], by rw [hf, hcur]⟩
  · intro s s' e hne hok
    exact (exec_nonBegin_preserves hne hok).2.1
  · intro t s x hreach hx hcur hfin
    exact notfreed_before_two_begins t s (reach_inv hreach) hx hcur hfin

/-- Witness for C1: the concrete scenario of spec §8 — add a resource,
remove it while frame 0 is current, run a frame on slot 1; the second
`begin_draw` (advancing back to slot 0, whose fence it observed signaled)
frees the resource, and from the removal state at least two `begin_draw`
steps were executed before the entry left the queue. -/
theorem c1_witness :
    (exec (runT engineInit
        [.addRes 7, .removeRes ⟨0, 0⟩, .beginDraw, .endDraw]) .beginDraw
      = .ok (runT engineInit
        [.addRes 7, .removeRes ⟨0, 0⟩, .beginDraw, .endDraw, .beginDraw]) ∧
     (7 : Nat) ∈ (runT engineInit
        [.addRes 7, .removeRes ⟨0, 0⟩, .beginDraw, .endDraw, .beginDraw]).freed) ∧
    (Reach (runT engineInit [.addRes 7, .removeRes ⟨0, 0⟩]) ∧
     2 ≤ (runPaced (runT engineInit [.addRes 7, .removeRes ⟨0, 0⟩])
        [.beginDraw, .endDraw, .beginDraw]).2) := by
  have hreach : Reach (runT engineInit [.addRes 7, .removeRes ⟨0, 0⟩]) :=
    @Reach.step (runT engineInit [.addRes 7])
      (runT engineInit [.addRes 7, .removeRes ⟨0, 0⟩]) (.removeRes ⟨0, 0⟩)
      (@Reach.step engineInit (runT engineInit [.addRes 7]) (.addRes 7)
        Reach.init (by decide))
      (by decide)
  refine ⟨⟨by decide, ?_⟩, hreach, ?_⟩
  · exact (c1_deferred_destroy.1
      (runT engineInit [.addRes 7, .removeRes ⟨0, 0⟩, .beginDraw, .endDraw])
      (runT engineInit
        [.addRes 7, .removeRes ⟨0, 0⟩, .beginDraw, .endDraw, .beginDraw])
      .beginDraw ⟨7, 0, 0⟩ (by decide) (by decide) (by decide)).2.2.2.1
  · exact c1_deferred_destroy.2.2.2 [.beginDraw, .endDraw, .beginDraw]
      (runT engineInit [.addRes 7, .removeRes ⟨0, 0⟩]) ⟨7, 0, 0⟩
      hreach (by decide) (by decide) (by decide)

/-- C2: `begin_draw` (`Device::next_frame`) only completes when the fence of
the slot about to be reused is signaled — otherwise the call blocks — and it
advances the ring index to exactly that slot; and in every reachable state
the number of frames submitted but not yet fence-signaled is at most
`IN_FLIGHT_FRAME_COUNT = 2`. -/
theorem c2_frame_pacing :
    (∀ (s s' : Engine), exec s .beginDraw = .ok s' →
        s.fences.getD ((s.currentFrame + 1) % IN_FLIGHT_FRAME_COUNT) .unsignaled
          = .signaled ∧
        s'.currentFrame = (s.currentFrame + 1) % IN_FLIGHT_FRAME_COUNT)
  ∧ (∀ (s : Engine), s.renderStage = false →
        s.fences.getD ((s.currentFrame + 1) % IN_FLIGHT_FRAME_COUNT) .unsignaled
          ≠ .signaled →
        exec s .beginDraw = .blockedWait)
  ∧ (∀ (s : Engine), Reach s → s.inFlight ≤ IN_FLIGHT_FRAME_COUNT) := by
  refine ⟨?_, ?_, ?_⟩
  · intro s s' hok
    obtain ⟨-, hsig, -⟩ := exec_beginDraw_ok hok
    exact ⟨hsig, (beginDraw_cleans_once hok).1⟩
  · intro s hrs hsig
    exact exec_beginDraw_blocked hrs hsig
  · intro s hreach
    obtain ⟨hlen, -, -, hghost, -⟩ := reach_inv hreach
    calc s.inFlight = pendingCount s.fences := hghost
      _ ≤ s.fences.length := pendingCount_le_length _
      _ = IN_FLIGHT_FRAME_COUNT := by rw [hlen]; rfl

/-- Witness for C2: from the initial state, `begin_draw` completes (the
slot-1 fence was created signaled) and advances the ring index to 1; the
in-flight bound holds at the state after one full begin/end pair. -/
theorem c2_witness :
    (exec engineInit .beginDraw = .ok (runT engineInit [.beginDraw]) ∧
     (runT engineInit [.beginDraw]).currentFrame = 1) ∧
    (Reach (runT engineInit [.beginDraw, .endDraw]) ∧
     (runT engineInit [.beginDraw, .endDraw]).inFlight ≤ IN_FLIGHT_FRAME_COUNT) := by
  have hreach : Reach (runT engineInit [.beginDraw, .endDraw]) :=
    @Reach.step (runT engineInit [.beginDraw])
      (runT engineInit [.beginDraw, .endDraw]) .endDraw
      (@Reach.step engineInit (runT engineInit [.beginDraw]) .beginDraw
        Reach.init (by decide))
      (by decide)
  refine ⟨⟨by decide, ?_⟩, hreach, ?_⟩
  · exact (c2_frame_pacing.1 engineInit (runT engineInit [.beginDraw])
      (by decide)).2
  · exact c2_frame_pacing.2.2 (runT engineInit [.beginDraw, .endDraw]) hreach

/-- C5: `draw` / `draw_on_window` outside an open begin/end bracket,
`begin_draw` inside one, and `end_draw` outside one each panic — and only
then; a draw call made inside a properly opened bracket does not panic on
this precondition. -/
theorem c5_bracket_preconditions :
    ∀ (s : Engine),
      (∀ w, exec s (.drawCall w) = .panicked ↔ s.renderStage = false) ∧
      (exec s .beginDraw = .panicked ↔ s.renderStage = true) ∧
      (exec s .endDraw = .panicked ↔ s.renderStage = false) ∧
      (∀ w, s.renderStage = true → exec s (.drawCall w) = .ok s) := by
  intro s
  exact ⟨fun w => drawCall_panicked_iff s w, beginDraw_panicked_iff s,
    endDraw_panicked_iff s, fun w h => drawCall_ok_of_during s w h⟩

/-- Witness for C5: inside the bracket opened by the first `begin_draw`, a
window draw call succeeds rather than panicking; outside any bracket a draw
call panics. -/
theorem c5_witness :
    ((runT engineInit [.beginDraw]).renderStage = true ∧
     exec (runT engineInit [.beginDraw]) (.drawCall true)
       = .ok (runT engineInit [.beginDraw])) ∧
    exec engineInit (.drawCall true) = .panicked := by
  refine ⟨⟨by decide, ?_⟩, ?_⟩
  · exact (c5_bracket_preconditions (runT engineInit [.beginDraw])).2.2.2 true
      (by decide)
  · exact ((c5_bracket_preconditions engineInit).1 true).2 (by decide)

/-- C7 counterexample: after `begin_draw; end_draw` from the initial state,
the fence of the current slot is armed for GPU signaling (`pendingGpu`), not in
the reset/unsignaled state the claim asserts; and the fence reset is in fact
performed by `begin_draw` (`Device::next_frame`), contradicting "no other
operation performs that reset". -/
theorem c7_counterexample :
    (runT engineInit [.beginDraw, .endDraw]).fences.getD
        (runT engineInit [.beginDraw, .endDraw]).currentFrame .unsignaled
      = .pendingGpu ∧
    FenceSt.pendingGpu ≠ FenceSt.unsignaled ∧
    (runT engineInit [.beginDraw]).fences.getD 1 .unsignaled = .unsignaled := by
  decide

/-- C7 (amended): `end_draw` leaves the fence of the current slot armed for GPU
signaling (`Device::submit` passes it to `queue_submit`); the reset of a
completion fence of a slot is performed exclusively by `begin_draw`
(`Device::next_frame`), on the slot about to be reused, right after waiting
for it. -/
theorem c7_fence_reset :
    (∀ (s s' : Engine), exec s .endDraw = .ok s' →
        s'.currentFrame = s.currentFrame ∧
        s'.fences = s.fences.set s.currentFrame .pendingGpu)
  ∧ (∀ (s s' : Engine) (e : Ev) (i : Nat), s.fences.length = 2 →
        exec s e = .ok s' →
        s.fences.getD i .unsignaled ≠ .unsignaled →
        s'.fences.getD i .unsignaled = .unsignaled →
        e = .beginDraw ∧ i = (s.currentFrame + 1) % IN_FLIGHT_FRAME_COUNT)
  ∧ (∀ (s s' : Engine), exec s .beginDraw = .ok s' →
        s'.fences = s.fences.set ((s.currentFrame + 1) % IN_FLIGHT_FRAME_COUNT)
          .unsignaled) := by
  refine ⟨?_, ?_, ?_⟩
  · intro s s' hok
    obtain ⟨-, hs'⟩ := exec_endDraw_ok hok
    subst hs'
    exact ⟨rfl, rfl⟩
  · intro s s' e i hlen hok hbefore hafter
    exact fence_reset_only_by_beginDraw hlen hok hbefore hafter
  · intro s s' hok
    obtain ⟨-, -, hs'⟩ := exec_beginDraw_ok hok
    subst hs'
    rfl

/-- Witness for C7 (amended): concretely, after one begin/end pair the next
`begin_draw` is the step that resets the fence of slot 0 from signaled to
unsignaled. -/
theorem c7_witness :
    ((runT engineInit [.beginDraw, .endDraw]).fences.length = 2 ∧
     exec (runT engineInit [.beginDraw, .endDraw]) .beginDraw
       = .ok (runT engineInit [.beginDraw, .endDraw, .beginDraw]) ∧
     (runT engineInit [.beginDraw, .endDraw]).fences.getD 0 .unsignaled
       ≠ .unsignaled ∧
     (runT engineInit [.beginDraw, .endDraw, .beginDraw]).fences.getD 0 .unsignaled
       = .unsignaled) ∧
    (Ev.beginDraw = Ev.beginDraw ∧
     0 = ((runT engineInit [.beginDraw, .endDraw]).currentFrame + 1)
       % IN_FLIGHT_FRAME_COUNT) := by
  refine ⟨⟨by decide, by decide, by decide, by decide⟩, ?_⟩
  exact c7_fence_reset.2.1 (runT engineInit [.beginDraw, .endDraw])
    (runT engineInit [.beginDraw, .endDraw, .beginDraw]) .beginDraw 0
    (by decide) (by decide) (by decide) (by decide)

/-- C10: in every reachable state the current frame index is strictly below
`IN_FLIGHT_FRAME_COUNT = 2`; a successful `begin_draw` (`Device::next_frame`)
changes it by exactly one step modulo 2; and no other operation changes
it. -/
theorem c10_frame_index :
    (∀ (s : Engine), Reach s → s.currentFrame < IN_FLIGHT_FRAME_COUNT)
  ∧ (∀ (s s' : Engine), exec s .beginDraw = .ok s' →
        s'.currentFrame = (s.currentFrame + 1) % IN_FLIGHT_FRAME_COUNT)
  ∧ (∀ (s s' : Engine) (e : Ev), e ≠ .beginDraw → exec s e = .ok s' →
        s'.currentFrame = s.currentFrame) := by
  refine ⟨?_, ?_, ?_⟩
  · intro s hreach
    exact (reach_inv hreach).2.1
  · intro s s' hok
    exact (beginDraw_cleans_once hok).1
  · intro s s' e hne hok
    exact (exec_nonBegin_preserves hne hok).1

/-- Witness for C10: the index bound at a concrete reachable state, the
advance-by-one at the first `begin_draw`, and index preservation by a
resource add. -/
theorem c10_witness :
    (Reach (runT engineInit [.beginDraw]) ∧
     (runT engineInit [.beginDraw]).currentFrame < IN_FLIGHT_FRAME_COUNT) ∧
    (runT engineInit [.beginDraw]).currentFrame
      = (engineInit.currentFrame + 1) % IN_FLIGHT_FRAME_COUNT ∧
    (runT engineInit [.addRes 3]).currentFrame = engineInit.currentFrame := by
  have hreach : Reach (runT engineInit [.beginDraw]) :=
    @Reach.step engineInit (runT engineInit [.beginDraw]) .beginDraw
      Reach.init (by decide)
  refine ⟨⟨hreach, ?_⟩, ?_, ?_⟩
  · exact c10_frame_index.1 _ hreach
  · exact c10_frame_index.2.1 _ _ (by decide)
  · exact c10_frame_index.2.2 _ _ (.addRes 3) (by decide) (by decide)

/-- C3: accessing a resource through `with_material` / `with_mesh` with a
handle whose generation does not match the current generation of the slot (or
whose slot does not exist) returns `None` as an ordinary value — the closure
is never invoked, nothing panics, and the engine state is returned
unchanged. -/
theorem c3_stale_handle_none :
    (∀ (s : Engine) (h : Handle) (f : Nat → Nat) (r : ResSlot),
        s.slots.get? h.slotIdx = some r → r.gen ≠ h.gen →
        withResource s h f = (none, s))
  ∧ (∀ (s : Engine) (h : Handle) (f : Nat → Nat),
        s.slots.get? h.slotIdx = none →
        withResource s h f = (none, s)) := by
  constructor
  · intro s h f r hget hne
    rw [List.get?_eq_getElem?] at hget
    simp [withResource, hget, hne]
  · intro s h f hget
    rw [List.get?_eq_getElem?] at hget
    simp [withResource, hget]

/-- Witness for C3: a slot whose generation has advanced to 3 silently
rejects a handle minted at generation 1. -/
theorem c3_witness :
    (({ engineInit with slots := [⟨some 5, 3⟩] } : Engine).slots.get? 0
        = some ⟨some 5, 3⟩ ∧
     (⟨some 5, 3⟩ : ResSlot).gen ≠ (⟨0, 1⟩ : Handle).gen) ∧
    withResource { engineInit with slots := [⟨some 5, 3⟩] } ⟨0, 1⟩ (fun v => v + 1)
      = (none, { engineInit with slots := [⟨some 5, 3⟩] }) := by
  refine ⟨⟨by decide, by decide⟩, ?_⟩
  exact c3_stale_handle_none.1 { engineInit with slots := [⟨some 5, 3⟩] } ⟨0, 1⟩
    (fun v => v + 1) ⟨some 5, 3⟩ (by decide) (by decide)

/-- C4 counterexample: the empty byte sequence is not a well-formed
two-field container record; `Shader::new` fails deserialization and returns
an error `Result`, but the public `Tegne::create_shader` path wraps it in
`check!` and panics instead of surfacing the error value — refuting the
claim for the public path. -/
theorem c4_counterexample :
    deserializeShaderFile [] = none ∧
    shaderNew [] = .error .deserialization ∧
    tegneCreateShader [] = .panicked :=
  ⟨rfl, rfl, rfl⟩

/-- C4 (amended): for every input byte sequence on which container
deserialization fails, `Shader::new` surfaces the failure as an error value
to its immediate caller and does not panic; the public `Tegne::create_shader`
consumes that error through `check!` and panics (by design, per the
fatal-error policy of the engine). -/
theorem c4_shader_container_errors :
    ∀ (source : List Nat), deserializeShaderFile source = none →
      shaderNew source = .error .deserialization ∧
      tegneCreateShader source = .panicked := by
  intro source hds
  have h1 : shaderNew source = .error .deserialization := by
    unfold shaderNew
    rw [hds]
  refine ⟨h1, ?_⟩
  unfold tegneCreateShader
  rw [h1]
  rfl

/-- Witness for C4 (amended): an 8-byte truncated container (a vertex length
prefix announcing 5 bytes with none following) fails deserialization;
`Shader::new` errors, `create_shader` panics. -/
theorem c4_witness :
    deserializeShaderFile [5, 0, 0, 0, 0, 0, 0, 0] = none ∧
    shaderNew [5, 0, 0, 0, 0, 0, 0, 0] = .error .deserialization ∧
    tegneCreateShader [5, 0, 0, 0, 0, 0, 0, 0] = .panicked := by
  refine ⟨by decide, ?_⟩
  exact c4_shader_container_errors [5, 0, 0, 0, 0, 0, 0, 0] (by decide)

/-- C8: `resize(width, height)` performs, in order: the full device-idle
wait, the surface resize, the swapchain recreation at the new surface size,
and the rebuild of all swapchain-bound window framebuffers; every other
engine field is left unchanged. -/
theorem c8_resize :
    ∀ (s : TegneM) (w h : Nat),
      (tegneResize s w h).2
        = [.waitForIdle, .surfaceResize w h, .swapchainRecreate,
           .framebufferRebuild] ∧
      (tegneResize s w h).1.surface = ⟨w, h⟩ ∧
      (tegneResize s w h).1.swapchain
        = { width := w, height := h, imageCount := s.swapchain.imageCount,
            epoch := s.swapchain.epoch + 1 } ∧
      (tegneResize s w h).1.windowFramebuffers
        = framebufferWindow (tegneResize s w h).1.swapchain ∧
      (tegneResize s w h).1.renderStage = s.renderStage ∧
      (tegneResize s w h).1.objectsState = s.objectsState ∧
      (tegneResize s w h).1.imageUniformState = s.imageUniformState ∧
      (tegneResize s w h).1.gpuIndex = s.gpuIndex := by
  intro s w h
  exact ⟨rfl, rfl, rfl, rfl, rfl, rfl, rfl, rfl⟩

theorem add_ok_elim {t : DescriptorTable} {v i : Nat} {t' : DescriptorTable}
    (h : t.add v = .ok (i, t')) :
    i = t.views.length ∧ t'.views = t.views ++ [v] := by
  unfold DescriptorTable.add at h
  split at h
  case isTrue hlt =>
    cases h
    exact ⟨rfl, rfl⟩
  case isFalse => exact absurd h (by simp)

theorem applyTableOp_len (t : DescriptorTable) (op : TableOp) :
    t.views.length ≤ (applyTableOp t op).views.length := by
  cases op with
  | removeBacking => exact Nat.le_refl _
  | addView v =>
      simp only [applyTableOp]
      split
      case h_1 p hp =>
        obtain ⟨-, hv⟩ := @add_ok_elim t v p.1 p.2 (by rw [hp])
        simp [hv]
      case h_2 => exact Nat.le_refl _

theorem applyTableOp_get? (t : DescriptorTable) (op : TableOp) (i : Nat)
    (hi : i < t.views.length) :
    (applyTableOp t op).views.get? i = t.views.get? i := by
  cases op with
  | removeBacking => rfl
  | addView v =>
      simp only [applyTableOp]
      split
      case h_1 p hp =>
        obtain ⟨-, hv⟩ := @add_ok_elim t v p.1 p.2 (by rw [hp])
        rw [hv]
        exact List.get?_append hi
      case h_2 => rfl

theorem applyTableOps_len :
    ∀ (ops : List TableOp) (t : DescriptorTable),
      t.views.length ≤ (applyTableOps t ops).views.length := by
  intro ops
  induction ops with
  | nil => intro t; exact Nat.le_refl _
  | cons op ops ih =>
      intro t
      exact Nat.le_trans (applyTableOp_len t op) (ih (applyTableOp t op))

theorem applyTableOps_get? :
    ∀ (ops : List TableOp) (t : DescriptorTable) (i : Nat),
      i < t.views.length →
      (applyTableOps t ops).views.get? i = t.views.get? i := by
  intro ops
  induction ops with
  | nil => intro t i _; rfl
  | cons op ops ih =>
      intro t i hi
      have h1 : i < (applyTableOp t op).views.length :=
        Nat.lt_of_lt_of_le hi (applyTableOp_len t op)
      have h2 : applyTableOps t (op :: ops) = applyTableOps (applyTableOp t op) ops := rfl
      rw [h2, ih (applyTableOp t op) i h1, applyTableOp_get? t op i hi]

/-- C6: descriptor-table indices are assigned in strictly increasing order
starting at 0 — each `add` returns the element count of the table at the moment
of the call — and an index, once assigned, keeps its image view for the
lifetime of the table across any further adds and backing-resource
removals; `Framebuffer::from_images` records exactly the pre-add count as
its shader index. -/
theorem c6_descriptor_indices :
    (∀ (t : DescriptorTable) (v i : Nat) (t' : DescriptorTable),
        t.add v = .ok (i, t') →
        i = t.imageCount ∧ t'.views = t.views ++ [v])
  ∧ (∀ (t : DescriptorTable) (ops : List TableOp) (i : Nat),
        i < t.views.length →
        (applyTableOps t ops).views.get? i = t.views.get? i)
  ∧ (∀ (t t1 t3 : DescriptorTable) (v w i j : Nat) (ops : List TableOp),
        t.add v = .ok (i, t1) →
        (applyTableOps t1 ops).add w = .ok (j, t3) → i < j)
  ∧ (∀ (t : DescriptorTable) (v : Nat),
        (framebufferFromImages t v).1 = t.imageCount) := by
  refine ⟨?_, ?_, ?_, ?_⟩
  · intro t v i t' h
    exact add_ok_elim h
  · intro t ops i hi
    exact applyTableOps_get? ops t i hi
  · intro t t1 t3 v w i j ops h1 h2
    obtain ⟨hi, hv⟩ := add_ok_elim h1
    obtain ⟨hj, -⟩ := add_ok_elim h2
    have hlen1 : t1.views.length = i + 1 := by
      rw [hv, hi]
      simp
    have := applyTableOps_len ops t1
    rw [hj]
    omega
  · intro t v
    rfl

/-- Witness for C6: from an empty table of capacity 4, the first add returns
index 0; after a backing-resource removal and another add, the next add
still returns the strictly larger index 2, and index 0 still holds its
original view. -/
theorem c6_witness :
    (DescriptorTable.add ⟨[], 4⟩ 9 = .ok (0, ⟨[9], 4⟩) ∧
     0 = DescriptorTable.imageCount ⟨[], 4⟩) ∧
    ((applyTableOps ⟨[9], 4⟩ [.removeBacking, .addView 8]).add 7
        = .ok (2, ⟨[9, 8, 7], 4⟩) ∧
     0 < 2) ∧
    (applyTableOps ⟨[9], 4⟩ [.removeBacking, .addView 8]).views.get? 0
      = ([9] : List Nat).get? 0 := by
  refine ⟨⟨rfl, ?_⟩, ⟨rfl, ?_⟩, ?_⟩
  · exact (c6_descriptor_indices.1 ⟨[], 4⟩ 9 0 ⟨[9], 4⟩ rfl).1
  · exact c6_descriptor_indices.2.2.1 ⟨[], 4⟩ ⟨[9], 4⟩ ⟨[9, 8, 7], 4⟩ 9 7 0 2
      [.removeBacking, .addView 8] rfl rfl
  · exact c6_descriptor_indices.2.1 ⟨[9], 4⟩ [.removeBacking, .addView 8] 0
      (by decide)

theorem meshNewFull_smooth_branch (o : MeshOptions) (ns : List Vector3)
    (hv : o.vertices ≠ []) (ht : o.triangles ≠ [])
    (hu : ¬ o.vertices.length < o.uvs.length) (hne : o.normals = [])
    (hsn : smoothNormals o.vertices o.triangles = some ns) :
    meshNewFull o = (.ok
      { vertices := o.vertices
        uvs := o.uvs ++ List.replicate (o.vertices.length - o.uvs.length) default
        normals := ns
        triangles := o.triangles
        vertexBufferLen := o.vertices.length
        indexBufferLen := o.triangles.length
        triangleCount := o.triangles.length / 3 },
      [o.vertices.length, o.triangles.length]) := by
  have hn : ¬ o.vertices.length < o.normals.length := by
    rw [hne]; simp
  simp only [meshNewFull]
  rw [if_neg (by simp [hv]), if_neg (by simp [ht]), if_neg hu, if_neg hn,
    if_pos (by simp [hne]), hsn]

theorem crossExampleTriangle :
    ((⟨1, 0, 0⟩ : Vector3).sub ⟨0, 0, 0⟩).cross ((⟨0, 1, 0⟩ : Vector3).sub ⟨0, 0, 0⟩)
      = ⟨0, 0, 1⟩ := by
  simp only [Vector3.sub, Vector3.cross, Vector3.mk.injEq]
  norm_num

theorem addDefaultZ1 : Vector3.add default ⟨0, 0, 1⟩ = ⟨0, 0, 1⟩ := by
  simp only [Vector3.add, default, Vector3.mk.injEq]
  norm_num

theorem unitZ1 : Vector3.unit ⟨0, 0, 1⟩ = ⟨0, 0, 1⟩ := by
  have hm : (⟨0, 0, 1⟩ : Vector3).magSq = 1 := by
    simp only [Vector3.magSq]
    norm_num
  have hr : ratSqrt 1 = 1 := by
    unfold ratSqrt
    norm_num
  simp only [Vector3.unit, hm, hr]
  rw [if_neg one_ne_zero]
  simp only [Vector3.mk.injEq]
  norm_num

theorem smoothNormalsTriangle :
    smoothNormals [⟨0, 0, 0⟩, ⟨1, 0, 0⟩, ⟨0, 1, 0⟩] [0, 1, 2]
      = some [⟨0, 0, 1⟩, ⟨0, 0, 1⟩, ⟨0, 0, 1⟩] := by
  have hacc : accumTriangles [⟨0, 0, 0⟩, ⟨1, 0, 0⟩, ⟨0, 1, 0⟩] (chunks3 [0, 1, 2])
      (List.replicate
        ([⟨0, 0, 0⟩, ⟨1, 0, 0⟩, ⟨0, 1, 0⟩] : List Vector3).length default)
      = some [Vector3.add default (((⟨1, 0, 0⟩ : Vector3).sub ⟨0, 0, 0⟩).cross
                ((⟨0, 1, 0⟩ : Vector3).sub ⟨0, 0, 0⟩)),
              Vector3.add default (((⟨1, 0, 0⟩ : Vector3).sub ⟨0, 0, 0⟩).cross
                ((⟨0, 1, 0⟩ : Vector3).sub ⟨0, 0, 0⟩)),
              Vector3.add default (((⟨1, 0, 0⟩ : Vector3).sub ⟨0, 0, 0⟩).cross
                ((⟨0, 1, 0⟩ : Vector3).sub ⟨0, 0, 0⟩))] := rfl
  rw [crossExampleTriangle, addDefaultZ1] at hacc
  unfold smoothNormals
  rw [hacc]
  simp [unitZ1]

/-- C9 counterexample: two inputs that pass all four validation checks yet
refute the success clause of the claim.  First, one vertex with the length-1
index list `[0]` and no normals: `chunks(3)` yields a short chunk and
`tri[1]` panics — no mesh (and no padded fields or triangle count) is
produced, though the buffers were already allocated.  Second, a triangle
with an empty normals list: the stored normals are the computed smooth
normals `(0,0,1)`, not padded default (zero) values. -/
theorem c9_counterexample :
    meshNewFull { vertices := [⟨0, 0, 0⟩], uvs := [], normals := [],
                  triangles := [0] }
      = (.panicked, [1, 1]) ∧
    meshNewFull { vertices := [⟨0, 0, 0⟩, ⟨1, 0, 0⟩, ⟨0, 1, 0⟩], uvs := [],
                  normals := [], triangles := [0, 1, 2] }
      = (.ok { vertices := [⟨0, 0, 0⟩, ⟨1, 0, 0⟩, ⟨0, 1, 0⟩]
               uvs := [default, default, default]
               normals := [⟨0, 0, 1⟩, ⟨0, 0, 1⟩, ⟨0, 0, 1⟩]
               triangles := [0, 1, 2]
               vertexBufferLen := 3
               indexBufferLen := 3
               triangleCount := 1 }, [3, 3]) ∧
    (⟨0, 0, 1⟩ : Vector3) ≠ (default : Vector3) := by
  refine ⟨by decide, ?_, ?_⟩
  · exact meshNewFull_smooth_branch
      { vertices := [⟨0, 0, 0⟩, ⟨1, 0, 0⟩, ⟨0, 1, 0⟩], uvs := [],
        normals := [], triangles := [0, 1, 2] }
      [⟨0, 0, 1⟩, ⟨0, 0, 1⟩, ⟨0, 0, 1⟩]
      (by decide) (by decide) (by decide) rfl smoothNormalsTriangle
  · intro h
    have hz := congrArg Vector3.z h
    simp only [default] at hz
    exact one_ne_zero hz

/-- C9 (amended): `Mesh::new` returns an error — before allocating any GPU
buffer — when the vertex list is empty, else when the index list is empty,
else when more uvs than vertices are supplied, else when more normals than
vertices are supplied.  On inputs passing these checks it allocates the
vertex and index buffers; uvs are padded with default values up to the
vertex count; a non-empty normals list is likewise padded with defaults;
an empty normals list is instead replaced by computed smooth normals
(accumulated triangle cross products, normalized), and in that case an
out-of-range triangle index or an index count that is not a multiple of 3
makes the construction panic.  The stored triangle count is the index count
divided by 3. -/
theorem c9_mesh_new :
    (∀ o : MeshOptions, o.vertices = [] →
        meshNewFull o = (.err .noVertices, []))
  ∧ (∀ o : MeshOptions, o.vertices ≠ [] → o.triangles = [] →
        meshNewFull o = (.err .noTriangles, []))
  ∧ (∀ o : MeshOptions, o.vertices ≠ [] → o.triangles ≠ [] →
        o.vertices.length < o.uvs.length →
        meshNewFull o = (.err .tooManyUvs, []))
  ∧ (∀ o : MeshOptions, o.vertices ≠ [] → o.triangles ≠ [] →
        ¬ o.vertices.length < o.uvs.length →
        o.vertices.length < o.normals.length →
        meshNewFull o = (.err .tooManyNormals, []))
  ∧ (∀ o : MeshOptions, o.vertices ≠ [] → o.triangles ≠ [] →
        ¬ o.vertices.length < o.uvs.length →
        ¬ o.vertices.length < o.normals.length → o.normals ≠ [] →
        meshNewFull o = (.ok
          { vertices := o.vertices
            uvs := o.uvs ++ List.replicate (o.vertices.length - o.uvs.length) default
            normals := o.normals
              ++ List.replicate (o.vertices.length - o.normals.length) default
            triangles := o.triangles
            vertexBufferLen := o.vertices.length
            indexBufferLen := o.triangles.length
            triangleCount := o.triangles.length / 3 },
          [o.vertices.length, o.triangles.length]))
  ∧ (∀ (o : MeshOptions) (ns : List Vector3), o.vertices ≠ [] → o.triangles ≠ [] →
        ¬ o.vertices.length < o.uvs.length → o.normals = [] →
        smoothNormals o.vertices o.triangles = some ns →
        meshNewFull o = (.ok
          { vertices := o.vertices
            uvs := o.uvs ++ List.replicate (o.vertices.length - o.uvs.length) default
            normals := ns
            triangles := o.triangles
            vertexBufferLen := o.vertices.length
            indexBufferLen := o.triangles.length
            triangleCount := o.triangles.length / 3 },
          [o.vertices.length, o.triangles.length]))
  ∧ (∀ o : MeshOptions, o.vertices ≠ [] → o.triangles ≠ [] →
        ¬ o.vertices.length < o.uvs.length → o.normals = [] →
        smoothNormals o.vertices o.triangles = none →
        meshNewFull o = (.panicked, [o.vertices.length, o.triangles.length])) := by
  refine ⟨?_, ?_, ?_, ?_, ?_, ?_, ?_⟩
  · intro o hv
    simp [meshNewFull, hv]
  · intro o hv ht
    simp [meshNewFull, hv, ht]
  · intro o hv ht hu
    simp only [meshNewFull]
    rw [if_neg (by simp [hv]), if_neg (by simp [ht]), if_pos hu]
  · intro o hv ht hu hn
    simp only [meshNewFull]
    rw [if_neg (by simp [hv]), if_neg (by simp [ht]), if_neg hu, if_pos hn]
  · intro o hv ht hu hn hne
    simp only [meshNewFull]
    rw [if_neg (by simp [hv]), if_neg (by simp [ht]), if_neg hu, if_neg hn,
      if_neg (by simp [hne])]
  · intro o ns hv ht hu hne hsn
    exact meshNewFull_smooth_branch o ns hv ht hu hne hsn
  · intro o hv ht hu hne hsn
    have hn : ¬ o.vertices.length < o.normals.length := by
      rw [hne]; simp
    simp only [meshNewFull]
    rw [if_neg (by simp [hv]), if_neg (by simp [ht]), if_neg hu, if_neg hn,
      if_pos (by simp [hne]), hsn]

/-- Witness for C9 (amended): the empty-vertex error, and the padded
success path on a triangle supplied with one uv and one normal. -/
theorem c9_witness :
    (([] : List Vector3) = [] ∧
     meshNewFull { vertices := [], uvs := [], normals := [], triangles := [] }
       = (.err .noVertices, [])) ∧
    meshNewFull { vertices := [⟨0, 0, 0⟩, ⟨1, 0, 0⟩, ⟨0, 1, 0⟩]
                  uvs := [⟨0, 0⟩]
                  normals := [⟨0, 0, 1⟩]
                  triangles := [0, 1, 2] }
      = (.ok { vertices := [⟨0, 0, 0⟩, ⟨1, 0, 0⟩, ⟨0, 1, 0⟩]
               uvs := [⟨0, 0⟩] ++ List.replicate 2 default
               normals := [⟨0, 0, 1⟩] ++ List.replicate 2 default
               triangles := [0, 1, 2]
               vertexBufferLen := 3
               indexBufferLen := 3
               triangleCount := 1 }, [3, 3]) := by
  refine ⟨⟨rfl, ?_⟩, ?_⟩
  · exact c9_mesh_new.1 { vertices := [], uvs := [], normals := [], triangles := [] }
      rfl
  · exact c9_mesh_new.2.2.2.2.1
      { vertices := [⟨0, 0, 0⟩, ⟨1, 0, 0⟩, ⟨0, 1, 0⟩], uvs := [⟨0, 0⟩],
        normals := [⟨0, 0, 1⟩], triangles := [0, 1, 2] }
      (by decide) (by decide) (by decide) (by decide) (by decide)

end DrawIt
